import Mathlib

/-!
Verification of the Ectoplasm swap-quote engine.

The definitions below are a shallow embedding of the quote code of the
Ectoplasm repository (`CasperService.getAmountOut`, `CasperService.getAmountIn`,
`CasperService.getDemoQuote`, and the slippage-input handler of
`setupSwapDemo`).  JavaScript `BigInt` values are modelled as `Int`; `BigInt`
division truncates toward zero, and every division in the embedded code is
performed only after the guards have ensured that both operands are positive,
where truncation, floor and Euclidean division all agree with Lean's `/` on
`Int`.  The demo-quote path works on JavaScript numbers; it is modelled over
`ℚ`, which is exact at every concrete value considered here.
-/

namespace Ectoplasm

/-- Embedding of `CasperService.getAmountOut` (`BigInt` arithmetic as `Int`):
zero-sentinel guards for a non-positive amount or reserve, then
`amountInWithFee = amountIn * 997`,
`amountOut = amountInWithFee * reserveOut / (reserveIn * 1000 + amountInWithFee)`. -/
def getAmountOut (amountIn reserveIn reserveOut : Int) : Int :=
  if amountIn ≤ 0 then 0
  else if reserveIn ≤ 0 ∨ reserveOut ≤ 0 then 0
  else
    let amountInWithFee := amountIn * 997
    let numerator := amountInWithFee * reserveOut
    let denominator := reserveIn * 1000 + amountInWithFee
    numerator / denominator

/-- Embedding of `CasperService.getAmountIn` (`BigInt` arithmetic as `Int`):
zero-sentinel guards for a non-positive amount or reserve and for
`amountOut >= reserveOut`, then
`amountIn = reserveIn * amountOut * 1000 / ((reserveOut - amountOut) * 997) + 1`. -/
def getAmountIn (amountOut reserveIn reserveOut : Int) : Int :=
  if amountOut ≤ 0 then 0
  else if reserveIn ≤ 0 ∨ reserveOut ≤ 0 then 0
  else if reserveOut ≤ amountOut then 0
  else
    let numerator := reserveIn * amountOut * 1000
    let denominator := (reserveOut - amountOut) * 997
    numerator / denominator + 1

/-- `getAmountOut` restricted to natural numbers (used for proofs; it agrees
with `getAmountOut` on casts, see `getAmountOut_natCast`). -/
def getAmountOutN (amountIn reserveIn reserveOut : Nat) : Nat :=
  if amountIn = 0 then 0
  else if reserveIn = 0 ∨ reserveOut = 0 then 0
  else amountIn * 997 * reserveOut / (reserveIn * 1000 + amountIn * 997)

/-- `getAmountIn` restricted to natural numbers (used for proofs; it agrees
with `getAmountIn` on casts, see `getAmountIn_natCast`). -/
def getAmountInN (amountOut reserveIn reserveOut : Nat) : Nat :=
  if amountOut = 0 then 0
  else if reserveIn = 0 ∨ reserveOut = 0 then 0
  else if reserveOut ≤ amountOut then 0
  else reserveIn * amountOut * 1000 / ((reserveOut - amountOut) * 997) + 1

lemma getAmountOut_natCast (a ri ro : Nat) :
    getAmountOut (a : Int) (ri : Int) (ro : Int) = (getAmountOutN a ri ro : Int) := by
  have h1 : ((a : Int) ≤ 0) ↔ a = 0 := by omega
  have h2 : ((ri : Int) ≤ 0 ∨ (ro : Int) ≤ 0) ↔ (ri = 0 ∨ ro = 0) := by omega
  simp only [getAmountOut, getAmountOutN, h1, h2]
  split_ifs with h3 h4
  · simp
  · simp
  · have hdiv := (Int.ofNat_ediv (a * 997 * ro) (ri * 1000 + a * 997)).symm
    push_cast at hdiv ⊢
    exact hdiv

lemma getAmountIn_natCast (a ri ro : Nat) :
    getAmountIn (a : Int) (ri : Int) (ro : Int) = (getAmountInN a ri ro : Int) := by
  have h1 : ((a : Int) ≤ 0) ↔ a = 0 := by omega
  have h2 : ((ri : Int) ≤ 0 ∨ (ro : Int) ≤ 0) ↔ (ri = 0 ∨ ro = 0) := by omega
  have h3 : ((ro : Int) ≤ (a : Int)) ↔ ro ≤ a := by omega
  simp only [getAmountIn, getAmountInN, h1, h2, h3]
  split_ifs with g1 g2 g3
  · simp
  · simp
  · simp
  · have hro : ((ro - a : Nat) : Int) = (ro : Int) - (a : Int) := by omega
    have hdiv := (Int.ofNat_ediv (ri * a * 1000) ((ro - a) * 997)).symm
    push_cast [hro] at hdiv ⊢
    omega

/-- Embedding of the `demoRates` lookup table of `CasperService.getDemoQuote`:
a fixed symbol-to-symbol map of static exchange rates.  The JavaScript number
literals are represented as the exact rationals they denote. -/
def demoRates (fromKey toKey : String) : Option ℚ :=
  match fromKey, toKey with
  | "cspr", "ecto" => some 0.05
  | "cspr", "usdc" => some 0.035
  | "cspr", "weth" => some 0.000015
  | "cspr", "wbtc" => some 0.0000008
  | "ecto", "cspr" => some 20
  | "ecto", "usdc" => some 0.70
  | "ecto", "weth" => some 0.0003
  | "ecto", "wbtc" => some 0.000016
  | "usdc", "cspr" => some 28.57
  | "usdc", "ecto" => some 1.43
  | "usdc", "weth" => some 0.00043
  | "usdc", "wbtc" => some 0.000023
  | "weth", "cspr" => some 66667
  | "weth", "ecto" => some 3333
  | "weth", "usdc" => some 2333
  | "weth", "wbtc" => some 0.053
  | "wbtc", "cspr" => some 1250000
  | "wbtc", "ecto" => some 62500
  | "wbtc", "usdc" => some 43750
  | "wbtc", "weth" => some 18.87
  | _, _ => none

/-- JavaScript's `toLowerCase()` on the ASCII token symbols, modelled
character-wise (this is extensionally `String.toLower`, written out so that
it evaluates by kernel reduction). -/
def lowercase (s : String) : String := ⟨s.data.map Char.toLower⟩

/-- The numeric fields of the object built by `CasperService.getDemoQuote`
that the specification talks about: the computed output amount (before the
`toFixed(6)` string formatting), the price-impact percentage (the literal
string `'0.00'`, i.e. zero), and the `demo: true` marker flag. -/
structure DemoQuote where
  amountOut : ℚ
  minReceived : ℚ
  priceImpact : ℚ
  demo : Bool
  deriving Repr, DecidableEq

/-- Embedding of `CasperService.getDemoQuote` (the static-rate fallback used
when no live reserves are available): look the rate up in `demoRates` with
lower-cased symbols, defaulting to `1` (`demoRates[f]?.[t] || 1`), multiply,
and mark the quote as a demo with zero price impact.  `defaultSlippagePct`
stands for `EctoplasmConfig.swap.defaultSlippage`, a configuration value
whose definition is outside the quote module. -/
def getDemoQuote (defaultSlippagePct : ℚ) (tokenInSymbol tokenOutSymbol : String)
    (amountIn : ℚ) : DemoQuote :=
  let rate := (demoRates (lowercase tokenInSymbol) (lowercase tokenOutSymbol)).getD 1
  let amountOutNum := amountIn * rate
  let slippage := defaultSlippagePct / 100
  { amountOut := amountOutNum
    minReceived := amountOutNum * (1 - slippage)
    priceImpact := 0
    demo := true }

/-- Embedding of the slippage-input handler installed by `setupSwapDemo`:
`slippage.value = Math.min(Math.max(parseFloat(slippage.value) || 0.1, 0.1), 5)`.
`none` models an unparsable field (`parseFloat` returns `NaN`); the `|| 0.1`
replaces both `NaN` and `0` by the default `0.1`. -/
def clampSlippage (v : Option ℚ) : ℚ :=
  let p : ℚ :=
    match v with
    | none => 0.1
    | some x => if x = 0 then 0.1 else x
  min (max p 0.1) 5

lemma getAmountOutN_of_pos (a ri ro : Nat) (ha : a ≠ 0) (hri : ri ≠ 0) (hro : ro ≠ 0) :
    getAmountOutN a ri ro = a * 997 * ro / (ri * 1000 + a * 997) := by
  simp [getAmountOutN, ha, hri, hro]

lemma getAmountInN_of_sat (a ri ro : Nat) (ha : a ≠ 0) (hri : ri ≠ 0) (hlt : a < ro) :
    getAmountInN a ri ro = ri * a * 1000 / ((ro - a) * 997) + 1 := by
  have hro : ro ≠ 0 := by omega
  have : ¬ ro ≤ a := by omega
  simp [getAmountInN, ha, hri, hro, this]

/-- C1: for positive `amountIn`, `reserveIn`, `reserveOut`, `getAmountOut`
returns exactly `⌊amountIn * 997 * reserveOut / (reserveIn * 1000 + amountIn * 997)⌋`:
the fee is applied as `amountIn * 997` and the division is floor division. -/
theorem getAmountOut_floor_formula (amountIn reserveIn reserveOut : Int)
    (ha : 0 < amountIn) (hri : 0 < reserveIn) (hro : 0 < reserveOut) :
    getAmountOut amountIn reserveIn reserveOut =
      ⌊((amountIn : ℚ) * 997 * (reserveOut : ℚ)) /
        ((reserveIn : ℚ) * 1000 + (amountIn : ℚ) * 997)⌋ := by
  obtain ⟨a, rfl⟩ := Int.eq_ofNat_of_zero_le ha.le
  obtain ⟨ri, rfl⟩ := Int.eq_ofNat_of_zero_le hri.le
  obtain ⟨ro, rfl⟩ := Int.eq_ofNat_of_zero_le hro.le
  have ha' : a ≠ 0 := by exact_mod_cast ha.ne'
  have hri' : ri ≠ 0 := by exact_mod_cast hri.ne'
  have hro' : ro ≠ 0 := by exact_mod_cast hro.ne'
  rw [getAmountOut_natCast, getAmountOutN_of_pos a ri ro ha' hri' hro']
  have key := Rat.floor_intCast_div_natCast ((a * 997 * ro : ℕ) : ℤ) (ri * 1000 + a * 997)
  push_cast at key ⊢
  rw [key]

/-- C1 witness: the theorem applied at `amountIn = 1000`, `reserveIn = 10000`,
`reserveOut = 20000`. -/
theorem getAmountOut_floor_formula_witness :
    (0 : Int) < 1000 ∧
      getAmountOut 1000 10000 20000 =
        ⌊((1000 : ℚ) * 997 * (20000 : ℚ)) / ((10000 : ℚ) * 1000 + (1000 : ℚ) * 997)⌋ := by
  refine ⟨by decide, ?_⟩
  have h := getAmountOut_floor_formula 1000 10000 20000 (by decide) (by decide) (by decide)
  push_cast at h ⊢
  exact h

/-- C4: for `0 < amountOut < reserveOut` and `reserveIn > 0`, `getAmountIn`
returns exactly `⌊reserveIn * amountOut * 1000 / ((reserveOut - amountOut) * 997)⌋ + 1`,
and for `amountOut ≥ reserveOut` (with positive reserves) it returns the
sentinel `0`. -/
theorem getAmountIn_formula_and_sentinel :
    (∀ amountOut reserveIn reserveOut : Int, 0 < amountOut → 0 < reserveIn →
      amountOut < reserveOut →
      getAmountIn amountOut reserveIn reserveOut =
        ⌊((reserveIn : ℚ) * (amountOut : ℚ) * 1000) /
          (((reserveOut : ℚ) - (amountOut : ℚ)) * 997)⌋ + 1) ∧
    (∀ amountOut reserveIn reserveOut : Int, 0 < reserveIn → 0 < reserveOut →
      reserveOut ≤ amountOut →
      getAmountIn amountOut reserveIn reserveOut = 0) := by
  constructor
  · intro amountOut reserveIn reserveOut ha hri hlt
    obtain ⟨a, rfl⟩ := Int.eq_ofNat_of_zero_le ha.le
    obtain ⟨ri, rfl⟩ := Int.eq_ofNat_of_zero_le hri.le
    obtain ⟨ro, rfl⟩ := Int.eq_ofNat_of_zero_le (le_trans ha.le hlt.le)
    have ha' : a ≠ 0 := by exact_mod_cast ha.ne'
    have hri' : ri ≠ 0 := by exact_mod_cast hri.ne'
    have hlt' : a < ro := by exact_mod_cast hlt
    rw [getAmountIn_natCast, getAmountInN_of_sat a ri ro ha' hri' hlt']
    have key := Rat.floor_intCast_div_natCast ((ri * a * 1000 : ℕ) : ℤ) ((ro - a) * 997)
    have hsub : ((ro - a : ℕ) : ℚ) = (ro : ℚ) - (a : ℚ) := by
      push_cast [Nat.cast_sub hlt'.le]
      ring
    push_cast [hsub] at key ⊢
    rw [key]
  · intro amountOut reserveIn reserveOut hri hro hge
    unfold getAmountIn
    split_ifs <;> rfl

/-- C4 witness: the formula branch at `amountOut = 100`, `reserveIn = 500`,
`reserveOut = 400`, and the sentinel branch at `amountOut = 400`,
`reserveIn = 2`, `reserveOut = 400`. -/
theorem getAmountIn_formula_and_sentinel_witness :
    (getAmountIn 100 500 400 =
        ⌊((500 : ℚ) * (100 : ℚ) * 1000) / (((400 : ℚ) - (100 : ℚ)) * 997)⌋ + 1) ∧
      getAmountIn 400 2 400 = 0 :=
  ⟨getAmountIn_formula_and_sentinel.1 100 500 400 (by decide) (by decide) (by decide),
   getAmountIn_formula_and_sentinel.2 400 2 400 (by decide) (by decide) (by decide)⟩

/-- C5 counterexample: `getAmountOut 1000 1000000 2000000` is not `1991`.
The specification's own formula gives
`⌊1994000000000 / 1000997000⌋ = 1992` (`1000997000 * 1992 = 1993986024000 ≤ 1994000000000`),
so the concrete integer `1991` quoted in the specification is an arithmetic
slip. -/
theorem getAmountOut_concrete_not_1991 :
    getAmountOut 1000 1000000 2000000 ≠ 1991 := by decide

/-- C5 (amended): with `reserveIn = 1000000`, `reserveOut = 2000000`,
`amountIn = 1000`, the engine produces exactly the integer `1992` via the
stated formula. -/
theorem getAmountOut_concrete_scenario :
    getAmountOut 1000 1000000 2000000 = 1992 := by decide

/-- C6: degenerate inputs yield the zero sentinel: a zero amount or a zero
reserve makes both `getAmountOut` and `getAmountIn` return `0` (the embedded
functions are total, so no exception is possible). -/
theorem degenerate_inputs_yield_zero :
    (∀ ri ro : Int, getAmountOut 0 ri ro = 0) ∧
    (∀ x ro : Int, getAmountOut x 0 ro = 0) ∧
    (∀ x ri : Int, getAmountOut x ri 0 = 0) ∧
    (∀ ri ro : Int, getAmountIn 0 ri ro = 0) ∧
    (∀ x ro : Int, getAmountIn x 0 ro = 0) ∧
    (∀ x ri : Int, getAmountIn x ri 0 = 0) := by
  refine ⟨fun ri ro => ?_, fun x ro => ?_, fun x ri => ?_,
    fun ri ro => ?_, fun x ro => ?_, fun x ri => ?_⟩ <;>
    first
      | (unfold getAmountOut; split_ifs <;> first | rfl | (exfalso; omega))
      | (unfold getAmountIn; split_ifs <;> first | rfl | (exfalso; omega))

/-- C7 counterexample: a negative amount does not fail with an
`InvalidArgument` kind — the call returns the computed sentinel `0`
(the source has no failure path at all: `if (amountIn <= 0) return 0`). -/
theorem negative_amount_returns_zero_counterexample :
    getAmountOut (-1) 5 5 = 0 ∧ getAmountIn (-1) 5 5 = 0 := by decide

/-- C7 (amended): every call of `getAmountOut` or `getAmountIn` with a
negative amount or a negative reserve returns the zero sentinel, exactly as
for the degenerate zero inputs; no `InvalidArgument` failure is reported. -/
theorem negative_inputs_yield_zero (a ri ro : Int)
    (h : a < 0 ∨ ri < 0 ∨ ro < 0) :
    getAmountOut a ri ro = 0 ∧ getAmountIn a ri ro = 0 := by
  unfold getAmountOut getAmountIn
  constructor <;> split_ifs <;> first | rfl | (exfalso; omega)

/-- C7 witness: the amended theorem applied at `a = 3`, `ri = -2`, `ro = 7`. -/
theorem negative_inputs_yield_zero_witness :
    ((3 : Int) < 0 ∨ (-2 : Int) < 0 ∨ (7 : Int) < 0) ∧
      (getAmountOut 3 (-2) 7 = 0 ∧ getAmountIn 3 (-2) 7 = 0) :=
  ⟨by decide, negative_inputs_yield_zero 3 (-2) 7 (by decide)⟩

/-- C8 counterexample: the slippage handler does not honor the claimed
contract — `150` lies outside `[0, 100)` yet is clamped to `5` instead of
being rejected, and `50` lies inside `[0, 100)` yet the quote is not computed
with it (it is also clamped to `5`). -/
theorem slippage_clamped_counterexample :
    clampSlippage (some 150) = 5 ∧ clampSlippage (some 50) = 5 := by
  have h : ∀ x : ℚ, clampSlippage (some x) =
      min (max (if x = 0 then 0.1 else x) 0.1) 5 := fun _ => rfl
  constructor
  · rw [h, if_neg (by norm_num : ¬ (150 : ℚ) = 0),
      max_eq_left (by norm_num), min_eq_right (by norm_num)]
  · rw [h, if_neg (by norm_num : ¬ (50 : ℚ) = 0),
      max_eq_left (by norm_num), min_eq_right (by norm_num)]

/-- C8 (amended): the quote path takes no caller-supplied slippage (the swap
quote uses the configured default), and the UI slippage input is clamped into
`[0.1, 5]` — out-of-range or unparsable values are replaced, never rejected. -/
theorem clampSlippage_range (v : Option ℚ) :
    (0.1 : ℚ) ≤ clampSlippage v ∧ clampSlippage v ≤ 5 := by
  refine ⟨?_, ?_⟩
  · exact le_min (le_max_right _ _) (by norm_num)
  · exact min_le_right _ _

/-- C9: the static-rate fallback quote for `symbolIn = "cspr"`,
`symbolOut = "ecto"`, `amountIn = 100` has `amountOut = 100 * 0.05 = 5`,
zero price impact, and is marked as a demo quote — for any configured
default slippage.  (At these values the JavaScript double arithmetic
`100 * 0.05` is exact, so the rational model agrees with the source.) -/
theorem demo_quote_cspr_ecto (s : ℚ) :
    (getDemoQuote s "cspr" "ecto" 100).amountOut = 5 ∧
    (getDemoQuote s "cspr" "ecto" 100).priceImpact = 0 ∧
    (getDemoQuote s "cspr" "ecto" 100).demo = true := by
  refine ⟨?_, rfl, rfl⟩
  show (100 : ℚ) * ((demoRates (lowercase "cspr") (lowercase "ecto")).getD 1) = 5
  have h : demoRates (lowercase "cspr") (lowercase "ecto") = some 0.05 := rfl
  rw [h]
  norm_num

lemma div_le_div_of_cross (n1 d1 n2 d2 : Nat) (hd1 : 0 < d1) (hd2 : 0 < d2)
    (h : n1 * d2 ≤ n2 * d1) : n1 / d1 ≤ n2 / d2 := by
  have h1 : n1 / d1 = n1 * d2 / (d1 * d2) := (Nat.mul_div_mul_right n1 d1 hd2).symm
  have h2 : n2 / d2 = n2 * d1 / (d2 * d1) := (Nat.mul_div_mul_right n2 d2 hd1).symm
  rw [h1, h2, Nat.mul_comm d2 d1]
  exact Nat.div_le_div_right h

lemma lt_div_succ_mul (n d : Nat) (hd : 0 < d) : n < (n / d + 1) * d := by
  have h1 := Nat.div_add_mod n d
  have h2 := Nat.mod_lt n hd
  calc n = d * (n / d) + n % d := h1.symm
    _ < d * (n / d) + d := by omega
    _ = (n / d + 1) * d := by ring

lemma getAmountOutN_le_reserveOut_and_product (a ri ro : Nat)
    (hri : 0 < ri) (hro : 0 < ro) :
    getAmountOutN a ri ro ≤ ro ∧
      ri * ro ≤ (ri + a) * (ro - getAmountOutN a ri ro) := by
  rcases Nat.eq_zero_or_pos a with rfl | ha
  · simp [getAmountOutN]
  · rw [getAmountOutN_of_pos a ri ro ha.ne' hri.ne' hro.ne']
    have hdpos : 0 < ri * 1000 + a * 997 := by omega
    have hqd : a * 997 * ro / (ri * 1000 + a * 997) * (ri * 1000 + a * 997) ≤
        a * 997 * ro := Nat.div_mul_le_self _ _
    have hub : a * 997 * ro ≤ ro * (ri * 1000 + a * 997) := by nlinarith
    have hqro : a * 997 * ro / (ri * 1000 + a * 997) ≤ ro :=
      Nat.le_of_mul_le_mul_right (le_trans hqd hub) hdpos
    refine ⟨hqro, ?_⟩
    obtain ⟨k, hk⟩ : ∃ k, ro - a * 997 * ro / (ri * 1000 + a * 997) = k :=
      ⟨_, rfl⟩
    have hk' : k + a * 997 * ro / (ri * 1000 + a * 997) = ro := by omega
    rw [hk]
    nlinarith [hqd, hk']

/-- C2: applying a trade never decreases the constant product: with
`reserveIn' = reserveIn + amountIn` and
`reserveOut' = reserveOut - getAmountOut amountIn reserveIn reserveOut`,
`reserveIn' * reserveOut' ≥ reserveIn * reserveOut`. -/
theorem constant_product_not_decreased (amountIn reserveIn reserveOut : Int)
    (ha : 0 ≤ amountIn) (hri : 0 < reserveIn) (hro : 0 < reserveOut) :
    reserveIn * reserveOut ≤
      (reserveIn + amountIn) *
        (reserveOut - getAmountOut amountIn reserveIn reserveOut) := by
  obtain ⟨a, rfl⟩ := Int.eq_ofNat_of_zero_le ha
  obtain ⟨ri, rfl⟩ := Int.eq_ofNat_of_zero_le hri.le
  obtain ⟨ro, rfl⟩ := Int.eq_ofNat_of_zero_le hro.le
  have hri' : 0 < ri := by exact_mod_cast hri
  have hro' : 0 < ro := by exact_mod_cast hro
  obtain ⟨hle, hprod⟩ := getAmountOutN_le_reserveOut_and_product a ri ro hri' hro'
  rw [getAmountOut_natCast]
  have hsub : (ro : ℤ) - (getAmountOutN a ri ro : ℤ) =
      ((ro - getAmountOutN a ri ro : ℕ) : ℤ) := by omega
  rw [hsub]
  exact_mod_cast hprod

/-- C2 witness: the theorem applied at `amountIn = 1000`,
`reserveIn = 1000000`, `reserveOut = 2000000`. -/
theorem constant_product_not_decreased_witness :
    (0 : Int) ≤ 1000 ∧
      (1000000 : Int) * 2000000 ≤
        (1000000 + 1000) * (2000000 - getAmountOut 1000 1000000 2000000) :=
  ⟨by decide,
   constant_product_not_decreased 1000 1000000 2000000
     (by decide) (by decide) (by decide)⟩

/-- C3 counterexample: the round trip under-estimates the input.  With
`reserveIn = 1000`, `reserveOut = 1` and the valid input `x = 1`
(`x ≥ 0`, both reserves positive), `getAmountOut 1 1000 1 = 0` and
`getAmountIn 0 1000 1 = 0 < 1`, refuting
`getAmountIn (getAmountOut x rIn rOut) rIn rOut ≥ x`. -/
theorem roundtrip_underestimates_counterexample :
    getAmountIn (getAmountOut 1 1000 1) 1000 1 < 1 := by decide

lemma roundtripN (y ri ro : Nat) (hri : 0 < ri) (hlt : y < ro) :
    y ≤ getAmountOutN (getAmountInN y ri ro) ri ro := by
  rcases Nat.eq_zero_or_pos y with rfl | hy
  · exact Nat.zero_le _
  · have hro : 0 < ro := by omega
    obtain ⟨z, rfl⟩ : ∃ z, ro = z + y := ⟨ro - y, by omega⟩
    have hz : 0 < z := by omega
    rw [getAmountInN_of_sat y ri (z + y) hy.ne' hri.ne' hlt]
    have hcancel : z + y - y = z := by omega
    rw [hcancel]
    have hzpos : 0 < z * 997 := by omega
    have hkey : ri * y * 1000 <
        (ri * y * 1000 / (z * 997) + 1) * (z * 997) :=
      lt_div_succ_mul _ _ hzpos
    have hxpos : ri * y * 1000 / (z * 997) + 1 ≠ 0 := Nat.succ_ne_zero _
    rw [getAmountOutN_of_pos _ ri (z + y) hxpos hri.ne' hro.ne']
    rw [Nat.le_div_iff_mul_le
      (by omega : 0 < ri * 1000 + (ri * y * 1000 / (z * 997) + 1) * 997)]
    nlinarith [hkey]

/-- C3 (amended): the guarantee provided by the deliberate `+1` rounding is
the reverse composition: for `0 ≤ y < reserveOut` and `reserveIn > 0`,
the input `getAmountIn y reserveIn reserveOut` always buys at least `y`:
`getAmountOut (getAmountIn y rIn rOut) rIn rOut ≥ y`.  The originally claimed
composition `getAmountIn (getAmountOut x rIn rOut) rIn rOut ≥ x` fails. -/
theorem getAmountIn_then_getAmountOut_covers (y reserveIn reserveOut : Int)
    (hy : 0 ≤ y) (hri : 0 < reserveIn) (hlt : y < reserveOut) :
    y ≤ getAmountOut (getAmountIn y reserveIn reserveOut) reserveIn reserveOut := by
  obtain ⟨b, rfl⟩ := Int.eq_ofNat_of_zero_le hy
  obtain ⟨ri, rfl⟩ := Int.eq_ofNat_of_zero_le hri.le
  obtain ⟨ro, rfl⟩ := Int.eq_ofNat_of_zero_le (le_trans hy hlt.le)
  have hri' : 0 < ri := by exact_mod_cast hri
  have hlt' : b < ro := by exact_mod_cast hlt
  rw [getAmountIn_natCast, getAmountOut_natCast]
  exact_mod_cast roundtripN b ri ro hri' hlt'

/-- C3 witness: the amended theorem applied at `y = 100`,
`reserveIn = 1000`, `reserveOut = 1000`. -/
theorem getAmountIn_then_getAmountOut_covers_witness :
    (0 : Int) ≤ 100 ∧
      (100 : Int) ≤ getAmountOut (getAmountIn 100 1000 1000) 1000 1000 :=
  ⟨by decide,
   getAmountIn_then_getAmountOut_covers 100 1000 1000
     (by decide) (by decide) (by decide)⟩

lemma getAmountOut_nonneg (a ri ro : Int) : 0 ≤ getAmountOut a ri ro := by
  unfold getAmountOut
  split_ifs with h1 h2
  · exact le_refl 0
  · exact le_refl 0
  · push_neg at h1 h2
    exact Int.ediv_nonneg (by nlinarith [h2.1, h2.2]) (by nlinarith [h2.1])

lemma getAmountOutN_mono (ri ro : Nat) {a b : Nat} (hab : a ≤ b) :
    getAmountOutN a ri ro ≤ getAmountOutN b ri ro := by
  rcases Nat.eq_zero_or_pos a with rfl | ha
  · simp [getAmountOutN]
  · have hb : b ≠ 0 := by omega
    rcases Nat.eq_zero_or_pos ri with rfl | hri
    · simp [getAmountOutN]
    · rcases Nat.eq_zero_or_pos ro with rfl | hro
      · simp [getAmountOutN]
      · rw [getAmountOutN_of_pos a ri ro ha.ne' hri.ne' hro.ne',
            getAmountOutN_of_pos b ri ro hb hri.ne' hro.ne']
        apply div_le_div_of_cross _ _ _ _ (by omega) (by omega)
        nlinarith [Nat.mul_le_mul_right (ro * ri) hab]

/-- C10: `getAmountOut` is monotone non-decreasing in its first argument:
for positive reserves and amounts `a ≤ b`, a larger input never buys a
strictly smaller output. -/
theorem getAmountOut_monotone (a b reserveIn reserveOut : Int)
    (hri : 0 < reserveIn) (hro : 0 < reserveOut) (hab : a ≤ b) :
    getAmountOut a reserveIn reserveOut ≤ getAmountOut b reserveIn reserveOut := by
  rcases le_or_lt a 0 with ha | ha
  · have h0 : getAmountOut a reserveIn reserveOut = 0 := by
      unfold getAmountOut
      rw [if_pos ha]
    rw [h0]
    exact getAmountOut_nonneg b reserveIn reserveOut
  · have hb : 0 < b := lt_of_lt_of_le ha hab
    obtain ⟨a', rfl⟩ := Int.eq_ofNat_of_zero_le ha.le
    obtain ⟨b', rfl⟩ := Int.eq_ofNat_of_zero_le hb.le
    obtain ⟨ri, rfl⟩ := Int.eq_ofNat_of_zero_le hri.le
    obtain ⟨ro, rfl⟩ := Int.eq_ofNat_of_zero_le hro.le
    rw [getAmountOut_natCast, getAmountOut_natCast]
    exact_mod_cast getAmountOutN_mono ri ro (show a' ≤ b' by exact_mod_cast hab)

/-- C10 witness: the theorem applied at `a = 10`, `b = 20`,
`reserveIn = 1000`, `reserveOut = 1000`. -/
theorem getAmountOut_monotone_witness :
    ((10 : Int) ≤ 20) ∧
      getAmountOut 10 1000 1000 ≤ getAmountOut 20 1000 1000 :=
  ⟨by decide, getAmountOut_monotone 10 20 1000 1000 (by decide) (by decide) (by decide)⟩

end Ectoplasm
